import Mathlib

/-!
Verification development for the pgtype codec registry and planning engine
(file src/pgtype/pgtype.go of the repository).

The Go code is shallowly embedded as follows.

* Go reflect types are the inductive `Ty`.  Named (user-defined) scalar
  types carry their underlying base kind, mirroring the reflect.Kind
  dispatch used by the base-type adapter plans.  Struct types implemented
  outside the excerpt (Value implementations, sql.Scanner implementations,
  and so on) are `Ty.structT name`.
* Go interface values are a pair of a `Ty` (the dynamic type) and a `Val`
  (the referent).  A pointer owns its pointee, so writing through a
  pointer is modelled by returning the updated pointer value; scan plans
  return a `ScanOut` holding the updated destination and the error, which
  matches the Go convention that the destination is mutated through the
  passed-in pointer even when an error is returned later.
* Behaviour of interfaces whose implementations are outside the excerpt
  (Value, TypeValue, the decoder interfaces, sql.Scanner, the helpers
  GetAssignToDstType and DatabaseSQLValue, and the text-scanner plan) is
  an explicit parameter, the structure `World`.  In Go only named types,
  struct types and pointers to those can carry methods, so interface
  satisfaction is cut down by `canHaveMethods`.
* Go maps are association lists with insert-or-replace semantics
  (`insertA` / `lookupA`), which matches Go map assignment and lookup.
  Map iteration order, which Go leaves unspecified, is list order here.
* Byte slices are `List Nat` (each entry a byte value), `Option` encodes
  Go nil-ness of slices, pointers and interfaces where it is observable.
-/

namespace Pgtype

/-- PostgreSQL oids for common types (constants from the source). -/
def BoolOID : Nat := 16
def ByteaOID : Nat := 17
def Int8OID : Nat := 20
def Int2OID : Nat := 21
def Int4OID : Nat := 23
def TextOID : Nat := 25
def JSONOID : Nat := 114
def Float4OID : Nat := 700
def Float8OID : Nat := 701
def VarcharOID : Nat := 1043

/-- Format codes: text is 0, binary is 1. -/
def TextFormatCode : Int := 0
def BinaryFormatCode : Int := 1

/-- The reflect kinds that appear as keys of the two base-type maps
(elemKindToBasePointerTypes and kindToBaseTypes) in the source: every
scalar kind with a canonical base type. -/
inductive BKind where
  | kInt | kInt8 | kInt16 | kInt32 | kInt64
  | kUint | kUint8 | kUint16 | kUint32 | kUint64
  | kFloat32 | kFloat64 | kString
  deriving DecidableEq, Repr

/-- Go types, as far as the planning engine inspects them. -/
inductive Ty where
  /-- an unnamed base scalar type (int64, string, float32, ...) -/
  | base (k : BKind)
  /-- a user-defined (named) type whose underlying type is the base
  scalar of kind k; its reflect.Kind is k but it differs from the base
  type, which is exactly when the base-type adapters fire -/
  | named (n : String) (k : BKind)
  | bool
  /-- the byte slice type -/
  | bytes
  | ptr (t : Ty)
  /-- the empty interface type -/
  | iface
  /-- a struct type defined outside the excerpt (Value implementations,
  codec helper types, sql.Scanner implementations, ...) -/
  | structT (n : String)
  deriving DecidableEq, Repr

/-- Size measure used to bound planner recursion (the planner only
recurses on strictly smaller types: pointee of a double pointer, base
type of a named type). -/
def sizeTy : Ty → Nat
  | .ptr t => sizeTy t + 1
  | .named _ _ => 2
  | _ => 1

/-- In Go, methods can only be declared on named/struct types, and a
pointer to such a type picks up the method set; primitives, slices,
unnamed pointers to primitives, and interfaces can never satisfy the
decoder/scanner interfaces. -/
def canHaveMethods : Ty → Bool
  | .named _ _ => true
  | .structT _ => true
  | .ptr (.named _ _) => true
  | .ptr (.structT _) => true
  | _ => false

/-- Go runtime values, as far as the plans inspect and update them. -/
inductive Val where
  /-- any integer scalar (the Ty distinguishes widths; arithmetic that
  depends on width is done explicitly where the source does it) -/
  | vInt (n : Int)
  /-- a float scalar, stored as its IEEE bit pattern (the plans only
  move bit patterns around, they never do float arithmetic) -/
  | vFloat (bits : Nat)
  | vString (s : List Nat)
  | vBool (b : Bool)
  /-- a byte slice; none is the nil slice -/
  | vBytes (b : Option (List Nat))
  /-- the nil pointer -/
  | vPtrNil
  /-- a non-nil pointer owning its pointee -/
  | vPtrTo (p : Val)
  /-- the nil interface value -/
  | vIfaceNil
  /-- a non-nil interface value with its dynamic type -/
  | vIface (ty : Ty) (v : Val)
  /-- opaque state of a struct value implemented outside the excerpt -/
  | vStruct (st : Nat)
  deriving DecidableEq, Repr

/-- Errors produced by the scan/encode machinery.  Constructors mirror
the fmt.Errorf messages of the source; `panicNilPlan`, `panicTypeAssert`
and `panicReflect` stand for Go runtime panics on code paths the planner
never reaches; `world n` is an arbitrary error returned by code outside
the excerpt; `fuel` marks exhaustion of the explicit recursion budget. -/
inductive GoErr where
  /-- cannot scan null into dst -/
  | cannotScanNull (t : Ty)
  /-- invalid length for (type name): n -/
  | invalidLength (tn : String) (n : Nat)
  /-- dt.binaryDecoder is nil -/
  | binaryDecoderNil
  /-- dt.textDecoder is nil -/
  | textDecoderNil
  /-- unknown oid in binary format cannot be scanned into a string -/
  | unknownOidBinaryIntoString (oid : Nat)
  /-- unknown oid cannot be scanned into dst -/
  | unknownOidInto (oid : Nat) (t : Ty)
  /-- unable to encode value -/
  | unableToEncode
  | panicNilPlan
  | panicTypeAssert
  | panicReflect
  | panicNilValue
  /-- dereference of the nil DataType inside the nil assign-to plan
  left behind by the shadowed type assertion at the re-plan site of
  scanPlanDataTypeAssignTo.Scan -/
  | panicNilDataType
  | world (n : Nat)
  | fuel
  deriving DecidableEq, Repr

/-- Wire input: none is SQL NULL (a nil byte slice). -/
abbrev Wire := Option (List Nat)

/-- A driver.Value / interface value crossing an abstract interface:
none is the nil interface. -/
abbrev DynVal := Option (Ty × Val)

/-! ### Association lists as Go maps -/

section AssocList
variable {α β : Type} [DecidableEq α]

/-- Go map lookup. -/
def lookupA : List (α × β) → α → Option β
  | [], _ => none
  | (k, v) :: rest, k0 => if k0 = k then some v else lookupA rest k0

/-- Go map assignment: replace the binding if present, append otherwise. -/
def insertA : List (α × β) → α → β → List (α × β)
  | [], k, v => [(k, v)]
  | (k0, v0) :: rest, k, v =>
      if k = k0 then (k, v) :: rest else (k0, v0) :: insertA rest k v

theorem lookupA_insertA_self (l : List (α × β)) (k : α) (v : β) :
    lookupA (insertA l k v) k = some v := by
  induction l with
  | nil => simp [insertA, lookupA]
  | cons hd tl ih =>
      obtain ⟨k0, v0⟩ := hd
      by_cases h : k = k0 <;> simp [insertA, lookupA, h, ih]

theorem lookupA_insertA_ne (l : List (α × β)) (k k0 : α) (v : β) (h : k0 ≠ k) :
    lookupA (insertA l k v) k0 = lookupA l k0 := by
  induction l with
  | nil => simp [insertA, lookupA, h]
  | cons hd tl ih =>
      obtain ⟨k1, v1⟩ := hd
      by_cases h1 : k = k1
      · subst h1; simp [insertA, lookupA, h]
      · by_cases h2 : k0 = k1 <;> simp [insertA, lookupA, h1, h2, ih]

theorem lookupA_insertA (l : List (α × β)) (k : α) (v : β) (n : α) :
    lookupA (insertA l k v) n = if n = k then some v else lookupA l n := by
  by_cases h : n = k
  · subst h; simp [lookupA_insertA_self]
  · simp [h, lookupA_insertA_ne l k n v h]

theorem insertA_insertA_same (l : List (α × β)) (k : α) (v : β) :
    insertA (insertA l k v) k v = insertA l k v := by
  induction l with
  | nil => simp [insertA]
  | cons hd tl ih =>
      obtain ⟨k0, v0⟩ := hd
      by_cases h : k = k0 <;> simp [insertA, h, ih]

theorem mem_insertA (l : List (α × β)) (k : α) (v : β) (b : α × β)
    (hb : b ∈ insertA l k v) : b ∈ l ∨ b = (k, v) := by
  induction l with
  | nil => simpa [insertA] using hb
  | cons hd tl ih =>
      obtain ⟨k0, v0⟩ := hd
      by_cases hk : k = k0
      · subst hk
        simp only [insertA, if_pos rfl] at hb
        cases hb with
        | head => right; rfl
        | tail _ h => left; exact List.mem_cons_of_mem _ h
      · simp only [insertA, if_neg hk] at hb
        cases hb with
        | head => left; exact List.mem_cons_self _ _
        | tail _ h =>
            rcases ih h with h2 | h2
            · left; exact List.mem_cons_of_mem _ h2
            · right; exact h2

/-- The key sets Go maps maintain: at most one binding per key. -/
abbrev uniqKeys (l : List (α × β)) : Prop :=
  l.Pairwise (fun a b => a.1 ≠ b.1)

theorem uniqKeys_insertA (l : List (α × β)) (k : α) (v : β)
    (h : uniqKeys l) : uniqKeys (insertA l k v) := by
  induction l with
  | nil => simp [insertA, uniqKeys]
  | cons hd tl ih =>
      obtain ⟨k0, v0⟩ := hd
      obtain ⟨hhd, htl⟩ := List.pairwise_cons.mp h
      by_cases hk : k = k0
      · subst hk
        simp only [insertA, if_pos rfl]
        exact List.Pairwise.cons (by simpa using hhd) htl
      · simp only [insertA, if_neg hk]
        refine List.Pairwise.cons ?_ (ih htl)
        intro b hb
        rcases mem_insertA tl k v b hb with hmem | hmem
        · exact hhd b hmem
        · subst hmem; simpa using fun h2 => hk h2.symm

end AssocList

/-! ### Plans, codecs and DataType records

`ScanPlan.Scan` takes the destination and returns the updated destination
together with the error, so plan behaviour is a function
`Nat → Int → Wire → Ty → Val → Val × Option GoErr` (oid, format, src,
destination type, destination value).  Codec-provided plans, whose
implementations live outside the excerpt, carry their behaviour as such a
function directly (`codecProvided`); all plan types defined in the
excerpt are constructors interpreted by `runScanPlan` below. -/

mutual

/-- The Codec interface.  `planScanF` and `planEncodeF` inspect only the
oid, format and the native type of the target, which is all the concrete
codecs outside the excerpt may observe statically; the Bool argument is
actualTarget.  `decodeValueF` returns the decoded value as a dynamic
value; `decodeDatabaseSQLValueF` likewise, restricted by convention to
driver-compatible values. -/
inductive CodecV where
  | mk (preferredFormatV : Int)
       (formatSupportedF : Int → Bool)
       (planScanF : Nat → Int → Ty → Bool → Option ScanPlan)
       (planEncodeF : Nat → Int → Ty → Option EncodePlan)
       (decodeValueF : Nat → Int → Wire → DynVal × Option GoErr)
       (decodeDatabaseSQLValueF : Nat → Int → Wire → DynVal × Option GoErr)

/-- A registered DataType record: the held Value (dynamic type and
current state), the cached decoder downcasts as presence flags (the
decoders are the Value itself, viewed through the decoder interfaces),
the optional Codec, the name and the oid. -/
inductive DataType where
  | mk (value? : Option (Ty × Val))
       (hasTextDecoder : Bool)
       (hasBinaryDecoder : Bool)
       (codec? : Option CodecV)
       (name : String)
       (oid : Nat)

/-- Scan plans.  One constructor per plan type of the source file, plus
`codecProvided` for plans produced by codecs outside the excerpt and
`textAnyToTextScanner` for scanPlanTextAnyToTextScanner, whose
definition is also outside the excerpt (its behaviour is a `World`
field). -/
inductive ScanPlan where
  | scanPlanDstResultDecoder
  | scanPlanDstBinaryDecoder
  | scanPlanDstTextDecoder
  | scanPlanDataTypeSQLScanner (dt : DataType)
  | scanPlanDataTypeAssignTo (dt : DataType)
  | scanPlanSQLScanner
  | scanPlanReflection
  | scanPlanBinaryInt64
  | scanPlanBinaryFloat32
  | scanPlanBinaryFloat64
  | scanPlanBinaryBytes
  | scanPlanString
  | pointerPointerScanPlan (dstType : Ty) (next : ScanPlan)
  | baseTypeScanPlan (dstType : Ty) (nextDstType : Ty) (next : ScanPlan)
  | pointerEmptyInterfaceScanPlan (codec : CodecV)
  | textAnyToTextScanner
  | codecProvided (run : Nat → Int → Wire → Ty → Val → Val × Option GoErr)

/-- Encode plans: the two adapter plans of the source plus codec-provided
plans carrying their behaviour (value type, value, buffer to append to;
result is the new buffer, none meaning the nil buffer, and the error). -/
inductive EncodePlan where
  | derefPointerEncodePlan (next : EncodePlan)
  | baseTypeEncodePlan (nextValueType : Ty) (next : EncodePlan)
  | codecProvided (run : Ty → Val → List Nat → Option (List Nat) × Option GoErr)

end

def CodecV.preferredFormat : CodecV → Int
  | .mk pf _ _ _ _ _ => pf

def CodecV.planScan : CodecV → Nat → Int → Ty → Bool → Option ScanPlan
  | .mk _ _ ps _ _ _ => ps

def CodecV.planEncode : CodecV → Nat → Int → Ty → Option EncodePlan
  | .mk _ _ _ pe _ _ => pe

def CodecV.decodeValue : CodecV → Nat → Int → Wire → DynVal × Option GoErr
  | .mk _ _ _ _ dv _ => dv

def CodecV.decodeDatabaseSQLValue : CodecV → Nat → Int → Wire → DynVal × Option GoErr
  | .mk _ _ _ _ _ dd => dd

def DataType.value? : DataType → Option (Ty × Val)
  | .mk v _ _ _ _ _ => v

def DataType.hasTextDecoder : DataType → Bool
  | .mk _ t _ _ _ _ => t

def DataType.hasBinaryDecoder : DataType → Bool
  | .mk _ _ b _ _ _ => b

def DataType.codec? : DataType → Option CodecV
  | .mk _ _ _ c _ _ => c

def DataType.name : DataType → String
  | .mk _ _ _ _ n _ => n

def DataType.oid : DataType → Nat
  | .mk _ _ _ _ _ o => o

/-! ### The world of code outside the excerpt

Method behaviour of Value implementations, decoder implementations,
sql.Scanner implementations, and the few helpers the excerpt calls into
but does not define.  Mutating methods take the receiver or destination
state and return the updated state paired with the error (Go mutates
through the pointer even when failing later). -/

structure World where
  /-- which types implement BinaryDecoder -/
  isBinaryDecoder : Ty → Bool
  /-- which types implement TextDecoder -/
  isTextDecoder : Ty → Bool
  /-- which types implement sql.Scanner -/
  isSQLScanner : Ty → Bool
  /-- which types implement TextScanner -/
  isTextScanner : Ty → Bool
  /-- which types implement TypeValue -/
  isTypeValue : Ty → Bool
  /-- which types implement BinaryEncoder -/
  isBinaryEncoder : Ty → Bool
  /-- DecodeBinary on a value of the given dynamic type: src, receiver
  state; returns updated receiver state and error -/
  decodeBinary : Ty → Wire → Val → Val × Option GoErr
  /-- DecodeText, same shape -/
  decodeText : Ty → Wire → Val → Val × Option GoErr
  /-- Value.AssignTo: value dynamic type, value state, destination
  dynamic type, destination value; updated destination and error -/
  assignTo : Ty → Val → Ty → Val → Val × Option GoErr
  /-- Value.Get as a dynamic value (none is a nil interface) -/
  getVal : Ty → Val → DynVal
  /-- TypeValue.TypeName -/
  typeName : Ty → Val → String
  /-- TypeValue.NewTypeValue -/
  newTypeValue : Ty → Val → Ty × Val
  /-- zero state of a struct type defined outside the excerpt -/
  structZero : String → Val
  /-- sql.Scanner.Scan: receiver type, receiver, argument; updated
  receiver and error -/
  sqlScan : Ty → Val → DynVal → Val × Option GoErr
  /-- behaviour of scanPlanTextAnyToTextScanner (defined outside the
  excerpt): oid, format, src, dst type, dst; updated dst and error -/
  runTextScannerPlan : Nat → Int → Wire → Ty → Val → Val × Option GoErr
  /-- GetAssignToDstType (defined outside the excerpt): the optional
  next assign target of a destination -/
  getAssignToDstType : Ty → Val → Option (Ty × Val)
  /-- DatabaseSQLValue helper (defined outside the excerpt): project a
  Value to a driver-compatible value -/
  databaseSQLValue : Ty → Val → DynVal × Option GoErr

/-- Interface satisfaction, cut down by what Go method sets permit. -/
def satBinaryDecoder (w : World) (t : Ty) : Bool :=
  canHaveMethods t && w.isBinaryDecoder t

def satTextDecoder (w : World) (t : Ty) : Bool :=
  canHaveMethods t && w.isTextDecoder t

def satSQLScanner (w : World) (t : Ty) : Bool :=
  canHaveMethods t && w.isSQLScanner t

def satTextScanner (w : World) (t : Ty) : Bool :=
  canHaveMethods t && w.isTextScanner t

def satTypeValue (w : World) (t : Ty) : Bool :=
  canHaveMethods t && w.isTypeValue t

def satBinaryEncoder (w : World) (t : Ty) : Bool :=
  canHaveMethods t && w.isBinaryEncoder t

/-- reflect.Zero: the zero value of a type. -/
def zeroVal (w : World) : Ty → Val
  | .base .kFloat32 => .vFloat 0
  | .base .kFloat64 => .vFloat 0
  | .base .kString => .vString []
  | .base _ => .vInt 0
  | .named _ .kFloat32 => .vFloat 0
  | .named _ .kFloat64 => .vFloat 0
  | .named _ .kString => .vString []
  | .named _ _ => .vInt 0
  | .bool => .vBool false
  | .bytes => .vBytes none
  | .ptr _ => .vPtrNil
  | .iface => .vIfaceNil
  | .structT n => w.structZero n

/-- NewValue (source): a fresh instance of the same type as v — via
NewTypeValue for TypeValues, else a fresh pointer to a zero pointee.
For a non-TypeValue Value whose dynamic type is not a pointer the Go
code would panic in reflect; such records do not occur (every Value
implementation in the package is a pointer type), and the model returns
the value unchanged there. -/
def newValue (w : World) (vTy : Ty) (v : Val) : Ty × Val :=
  if satTypeValue w vTy then w.newTypeValue vTy v
  else
    match vTy with
    | .ptr t => (.ptr t, .vPtrTo (zeroVal w t))
    | _ => (vTy, v)

/-! ### The registry (ConnInfo)

The unused oidToResultFormatCode field of the source (written only at
construction, never read) is omitted. -/

structure ConnInfo where
  oidToDataType : List (Nat × DataType)
  nameToDataType : List (String × DataType)
  reflectTypeToName : List (Ty × String)
  oidToFormatCode : List (Nat × Int)
  /-- the derived native-type index; none when invalidated -/
  reflectTypeToDataType : Option (List (Ty × DataType))
  preferAssignToOverSQLScannerTypes : List Ty

/-- newConnInfo: all indices empty, derived index absent. -/
def emptyConnInfo : ConnInfo :=
  { oidToDataType := []
    nameToDataType := []
    reflectTypeToName := []
    oidToFormatCode := []
    reflectTypeToDataType := none
    preferAssignToOverSQLScannerTypes := [] }

/-- The input to RegisterDataType: the public fields of DataType (the
cached decoder fields are private and zero in the argument record). -/
structure DTIn where
  value? : Option (Ty × Val)
  codec? : Option CodecV
  name : String
  oid : Nat

/-- The record RegisterDataType ends up holding: Value replaced by a
fresh NewValue clone, decoder downcasts cached.  In the source the
struct is inserted into the maps by pointer before the decoder fields
are written; since nothing reads the maps in between, the model inserts
the finished record. -/
def mkDataType (w : World) (t : DTIn) : DataType :=
  let value? := t.value?.map (fun p => newValue w p.1 p.2)
  let hasText :=
    match value? with
    | some (ty, _) => satTextDecoder w ty
    | none => false
  let hasBin :=
    match value? with
    | some (ty, _) => satBinaryDecoder w ty
    | none => false
  .mk value? hasText hasBin t.codec? t.name t.oid

/-- The preferred format code recorded for the registered type: the
codec preference when a codec is present, else binary when the (cloned)
Value implements BinaryEncoder, else text. -/
def preferredFormatCodeOf (w : World) (t : DTIn) : Int :=
  match t.codec? with
  | some c => c.preferredFormat
  | none =>
      match t.value?.map (fun p => newValue w p.1 p.2) with
      | some (ty, _) => if satBinaryEncoder w ty then BinaryFormatCode else TextFormatCode
      | none => TextFormatCode

/-- ConnInfo.RegisterDataType. -/
def registerDataType (w : World) (ci : ConnInfo) (t : DTIn) : ConnInfo :=
  let dt := mkDataType w t
  { ci with
    oidToDataType := insertA ci.oidToDataType t.oid dt
    nameToDataType := insertA ci.nameToDataType t.name dt
    oidToFormatCode := insertA ci.oidToFormatCode t.oid (preferredFormatCodeOf w t)
    reflectTypeToDataType := none }

/-- ConnInfo.RegisterDefaultPgType: record native type to name and
invalidate the derived index. -/
def registerDefaultPgType (ci : ConnInfo) (vTy : Ty) (name : String) : ConnInfo :=
  { ci with
    reflectTypeToName := insertA ci.reflectTypeToName vTy name
    reflectTypeToDataType := none }

/-- ConnInfo.PreferAssignToOverSQLScannerForType (a set insert). -/
def preferAssignToForType (ci : ConnInfo) (vTy : Ty) : ConnInfo :=
  { ci with
    preferAssignToOverSQLScannerTypes :=
      if vTy ∈ ci.preferAssignToOverSQLScannerTypes then
        ci.preferAssignToOverSQLScannerTypes
      else
        vTy :: ci.preferAssignToOverSQLScannerTypes }

/-- ConnInfo.DataTypeForOID; some models (dt, true), none models (nil, false). -/
def dataTypeForOID (ci : ConnInfo) (oid : Nat) : Option DataType :=
  lookupA ci.oidToDataType oid

/-- ConnInfo.DataTypeForName. -/
def dataTypeForName (ci : ConnInfo) (name : String) : Option DataType :=
  lookupA ci.nameToDataType name

/-- ConnInfo.buildReflectTypeToDataType: walk oidToDataType adding the
dynamic type of each non-TypeValue Value, then overlay the user-declared
native-type-to-name mappings resolved through the name index.  Go map
iteration order is unspecified; here it is list order, which only
matters when two registered DataTypes share a Value type. -/
def buildReflectTypeToDataType (w : World) (ci : ConnInfo) : List (Ty × DataType) :=
  let m0 := ci.oidToDataType.foldl
    (fun m kv =>
      match kv.2.value? with
      | some (vTy, _) => if satTypeValue w vTy then m else insertA m vTy kv.2
      | none => m) []
  ci.reflectTypeToName.foldl
    (fun m kv =>
      match lookupA ci.nameToDataType kv.2 with
      | some dt => insertA m kv.1 dt
      | none => m) m0

/-- ConnInfo.DataTypeForValue: rebuild the derived index if absent; a
TypeValue is looked up by its declared TypeName, anything else by its
native type.  Returns the lookup result and the (possibly) updated
registry (the source mutates the receiver to cache the rebuilt index). -/
def dataTypeForValue (w : World) (ci : ConnInfo) (vTy : Ty) (v : Val) :
    Option DataType × ConnInfo :=
  let ci2 :=
    match ci.reflectTypeToDataType with
    | none => { ci with reflectTypeToDataType := some (buildReflectTypeToDataType w ci) }
    | some _ => ci
  if satTypeValue w vTy then
    (lookupA ci2.nameToDataType (w.typeName vTy v), ci2)
  else
    (lookupA (ci2.reflectTypeToDataType.getD []) vTy, ci2)

/-- ConnInfo.FormatCodeForOID: the registered preference, or text. -/
def formatCodeForOID (ci : ConnInfo) (oid : Nat) : Int :=
  match lookupA ci.oidToFormatCode oid with
  | some fc => fc
  | none => TextFormatCode

/-! ### Scan planning -/

/-- The fast paths of PlanScan: the two type switches keyed on format
and destination shape.  A type-switch case that matches but whose oid
filter fails falls out of the switch with no plan, like the source. -/
def planScanFast (w : World) (oid : Nat) (fmt : Int) (dstTy : Ty) : Option ScanPlan :=
  if fmt = BinaryFormatCode then
    if dstTy = .ptr (.base .kString) then
      if oid = TextOID ∨ oid = VarcharOID then some .scanPlanString else none
    else if dstTy = .ptr (.base .kInt64) then
      if oid = Int8OID then some .scanPlanBinaryInt64 else none
    else if dstTy = .ptr (.base .kFloat32) then
      if oid = Float4OID then some .scanPlanBinaryFloat32 else none
    else if dstTy = .ptr (.base .kFloat64) then
      if oid = Float8OID then some .scanPlanBinaryFloat64 else none
    else if dstTy = .ptr .bytes then
      if oid = ByteaOID ∨ oid = TextOID ∨ oid = VarcharOID ∨ oid = JSONOID then
        some .scanPlanBinaryBytes
      else none
    else if satBinaryDecoder w dstTy then some .scanPlanDstBinaryDecoder
    else none
  else if fmt = TextFormatCode then
    if dstTy = .ptr (.base .kString) then some .scanPlanString
    else if dstTy = .ptr .bytes then
      if oid ≠ ByteaOID then some .scanPlanBinaryBytes else none
    else if satTextDecoder w dstTy then some .scanPlanDstTextDecoder
    else if satTextScanner w dstTy then some .textAnyToTextScanner
    else none
  else none

/-- The codec block of PlanScan (the body of the source's
`dt != nil && dt.Codec != nil` block): ask the codec, then try the
pointer-pointer adapter, then the base-type adapter, then the
empty-interface plan; none means the block fell through.  `rec` is the
recursive planning call made by the two adapters.  The pointer-pointer
adapter recurses on the pointee type (a nil pointer of that type as the
synthesized next destination, from tryPointerPointerScanPlan), the
base-type adapter on the base pointer type of a named scalar type (the
converted destination value, from tryBaseTypeScanPlan; every BKind is a
key of elemKindToBasePointerTypes, and the base pointer type differs
from dst exactly when the pointee is a named type). -/
def planScanCodecBlock (w : World)
    (rec : Nat → Int → Ty → Val → Option ScanPlan)
    (oid : Nat) (fmt : Int) (dstTy : Ty) (dstVal : Val) (c : CodecV) :
    Option ScanPlan :=
  match c.planScan oid fmt dstTy false with
  | some p => some p
  | none =>
    let pp : Option ScanPlan :=
      match dstTy with
      | .ptr (.ptr t) =>
          match rec oid fmt (.ptr t) (zeroVal w (.ptr t)) with
          | some np => some (.pointerPointerScanPlan (.ptr (.ptr t)) np)
          | none => none
      | _ => none
    match pp with
    | some p => some p
    | none =>
      let bt : Option ScanPlan :=
        match dstTy with
        | .ptr (.named n k) =>
            match rec oid fmt (.ptr (.base k)) dstVal with
            | some np =>
                some (.baseTypeScanPlan (.ptr (.named n k)) (.ptr (.base k)) np)
            | none => none
        | _ => none
      match bt with
      | some p => some p
      | none =>
          if dstTy = .ptr .iface then some (.pointerEmptyInterfaceScanPlan c)
          else none

/-- The tail of PlanScan for a resolved DataType (the source's
`dt != nil` block): prefer the sql.Scanner plan unless the destination
type opted out, else the assign-to plan. -/
def planScanDtTail (w : World) (ci : ConnInfo) (dstTy : Ty) (dt : DataType) :
    Option ScanPlan :=
  if satSQLScanner w dstTy ∧ ¬ dstTy ∈ ci.preferAssignToOverSQLScannerTypes then
    some (.scanPlanDataTypeSQLScanner dt)
  else some (.scanPlanDataTypeAssignTo dt)

/-- One step of PlanScan: fast paths, DataType resolution (by oid, or
by the destination value when oid is zero), codec block, tail,
last-resort fallbacks. -/
def planScanStep (w : World) (ci : ConnInfo)
    (rec : Nat → Int → Ty → Val → Option ScanPlan)
    (oid : Nat) (fmt : Int) (dstTy : Ty) (dstVal : Val) : Option ScanPlan :=
  match planScanFast w oid fmt dstTy with
  | some p => some p
  | none =>
    match (if oid = 0 then (dataTypeForValue w ci dstTy dstVal).1
           else dataTypeForOID ci oid) with
    | none =>
        if satSQLScanner w dstTy then some .scanPlanSQLScanner
        else some .scanPlanReflection
    | some dt =>
        match (match dt.codec? with
               | none => none
               | some c => planScanCodecBlock w rec oid fmt dstTy dstVal c) with
        | some p => some p
        | none => planScanDtTail w ci dstTy dt

/-- PlanScan with an explicit recursion budget; each adapter recursion
spends one unit.  The recursion strictly decreases the destination
type, so a budget of sizeTy dstTy + 1 never runs out. -/
def planScanFuel (w : World) (ci : ConnInfo) :
    Nat → Nat → Int → Ty → Val → Option ScanPlan
  | 0 => fun _ _ _ _ => none
  | fuel + 1 => planScanStep w ci (planScanFuel w ci fuel)

/-- ConnInfo.PlanScan.  The budget sizeTy dstTy + 1 is exactly enough
for the type-decreasing recursion, so the budget branch is never hit. -/
def planScan (w : World) (ci : ConnInfo) (oid : Nat) (fmt : Int)
    (dstTy : Ty) (dstVal : Val) : Option ScanPlan :=
  planScanFuel w ci (sizeTy dstTy + 1) oid fmt dstTy dstVal

/-! ### Encode planning -/

/-- PlanEncode with an explicit recursion budget, like planScanFuel.
The pointer-deref adapter recurses on the zero value of the pointee
(from tryDerefPointerEncodePlan); the base-type adapter on the value
converted to the base type of its kind (from tryBaseTypeEncodePlan;
the conversion does not change the runtime representation). -/
def planEncodeFuel (w : World) (ci : ConnInfo) :
    Nat → Nat → Int → Ty → Val → Option EncodePlan
  | 0, _, _, _, _ => none
  | fuel + 1, oid, fmt, vTy, v =>
    let dt? : Option DataType :=
      if oid = 0 then (dataTypeForValue w ci vTy v).1
      else dataTypeForOID ci oid
    match dt? with
    | none => none
    | some dt =>
      match dt.codec? with
      | none => none
      | some c =>
        match c.planEncode oid fmt vTy with
        | some p => some p
        | none =>
          let dp : Option EncodePlan :=
            match vTy with
            | .ptr t =>
                match planEncodeFuel w ci fuel oid fmt t (zeroVal w t) with
                | some np => some (.derefPointerEncodePlan np)
                | none => none
            | _ => none
          match dp with
          | some p => some p
          | none =>
            match vTy with
            | .named _ k =>
                match planEncodeFuel w ci fuel oid fmt (.base k) v with
                | some np => some (.baseTypeEncodePlan (.base k) np)
                | none => none
            | _ => none

/-- ConnInfo.PlanEncode. -/
def planEncode (w : World) (ci : ConnInfo) (oid : Nat) (fmt : Int)
    (vTy : Ty) (v : Val) : Option EncodePlan :=
  planEncodeFuel w ci (sizeTy vTy + 1) oid fmt vTy v

/-! ### Plan execution -/

/-- binary.BigEndian: big-endian unsigned reading of a byte slice (the
entries are bytes, reduced mod 256 as the Go byte type enforces). -/
def beNat (b : List Nat) : Nat :=
  b.foldl (fun acc x => acc * 256 + x % 256) 0

/-- int64(binary.BigEndian.Uint64 src): the two's-complement signed
reading of the 8-byte big-endian value. -/
def beInt64 (b : List Nat) : Int :=
  let u := beNat b
  if u < 2 ^ 63 then (u : Int) else (u : Int) - 2 ^ 64

/-- Store a dynamic value into an empty-interface slot. -/
def dynToIface : DynVal → Val
  | none => .vIfaceNil
  | some (t, v) => .vIface t v

/-- scanUnknownType.  The default branch chases the GetAssignToDstType
chain (the chain lives outside the excerpt and may cycle, hence the
budget).  In Go the next assign target points into dst, so writes made
deeper in the chain are visible through dst; the model keeps dst fixed
and propagates the error, which is all the excerpt observes. -/
def scanUnknownType (w : World) (oid : Nat) (fmt : Int) (buf : Wire) :
    Nat → Ty → Val → Val × Option GoErr
  | fuel, dstTy, dst =>
    if dstTy = .ptr (.base .kString) then
      if fmt = BinaryFormatCode then (dst, some (.unknownOidBinaryIntoString oid))
      else (.vPtrTo (.vString (buf.getD [])), none)
    else if dstTy = .ptr .bytes then (.vPtrTo (.vBytes buf), none)
    else
      match w.getAssignToDstType dstTy dst, fuel with
      | some (nTy, nVal), f + 1 =>
          (dst, (scanUnknownType w oid fmt buf f nTy nVal).2)
      | some _, 0 => (dst, some .fuel)
      | none, _ => (dst, some (.unknownOidInto oid dstTy))

/-- The decode step of the assign-to plan: decode src into the held
Value through the cached decoder for the requested format (a missing
decoder is an error); formats other than text and binary skip the
decode, leaving the Value state unchanged with no error. -/
def assignToDecodeStep (w : World) (dt : DataType) (fmt : Int) (src : Wire)
    (vTy : Ty) (vSt : Val) : Except GoErr Val :=
  if fmt = BinaryFormatCode then
    if dt.hasBinaryDecoder then
      match w.decodeBinary vTy src vSt with
      | (s, none) => .ok s
      | (_, some e) => .error e
    else .error .binaryDecoderNil
  else if fmt = TextFormatCode then
    if dt.hasTextDecoder then
      match w.decodeText vTy src vSt with
      | (s, none) => .ok s
      | (_, some e) => .error e
    else .error .textDecoderNil
  else .ok vSt

/-- ScanPlan.Scan for every plan type, with an explicit recursion
budget for the re-planning loops (which in Go can genuinely diverge for
adversarial codecs or assign-target chains).  Returns the updated
destination and the error.  The shared DataType Value state that a
decode mutates is threaded locally through the single call; the source
mutates the registry-held Value in place, which nothing here observes
across calls. -/
def runScanPlan (w : World) (ci : ConnInfo) :
    Nat → ScanPlan → Nat → Int → Wire → Ty → Val → Val × Option GoErr
  | 0, _, _, _, _, _, dst => (dst, some .fuel)
  | fuel + 1, plan, oid, fmt, src, dstTy, dst =>
    let replan : Val × Option GoErr :=
      match planScan w ci oid fmt dstTy dst with
      | some np => runScanPlan w ci fuel np oid fmt src dstTy dst
      | none => (dst, some .panicNilPlan)
    match plan with
    | .scanPlanDstResultDecoder => replan
    | .scanPlanDstBinaryDecoder =>
        if satBinaryDecoder w dstTy then w.decodeBinary dstTy src dst else replan
    | .scanPlanDstTextDecoder =>
        if satTextDecoder w dstTy then w.decodeText dstTy src dst else replan
    | .scanPlanDataTypeSQLScanner dt =>
        if ¬ satSQLScanner w dstTy then replan
        else
          match dt.codec? with
          | some c =>
              match c.decodeDatabaseSQLValue oid fmt src with
              | (_, some e) => (dst, some e)
              | (dv, none) => w.sqlScan dstTy dst dv
          | none =>
              match dt.value? with
              | none => (dst, some .panicNilValue)
              | some (vTy, vSt) =>
                  let dec : Val × Option GoErr :=
                    if fmt = BinaryFormatCode then
                      if dt.hasBinaryDecoder then w.decodeBinary vTy src vSt
                      else (vSt, some .panicNilValue)
                    else if fmt = TextFormatCode then
                      if dt.hasTextDecoder then w.decodeText vTy src vSt
                      else (vSt, some .panicNilValue)
                    else (vSt, none)
                  match dec with
                  | (_, some e) => (dst, some e)
                  | (vSt2, none) =>
                      match w.databaseSQLValue vTy vSt2 with
                      | (_, some e) => (dst, some e)
                      | (dv, none) => w.sqlScan dstTy dst dv
    | .scanPlanDataTypeAssignTo dt =>
        match dt.value? with
        | none =>
            if fmt = BinaryFormatCode then (dst, some .binaryDecoderNil)
            else if fmt = TextFormatCode then (dst, some .textDecoderNil)
            else (dst, some .panicNilValue)
        | some (vTy, vSt) =>
            match assignToDecodeStep w dt fmt src vTy vSt with
            | .error e => (dst, some e)
            | .ok vSt2 =>
                match w.assignTo vTy vSt2 dstTy dst with
                | (dst2, none) => (dst2, none)
                | (dst2, some assignToErr) =>
                    if dstTy = .ptr .iface then
                      (.vPtrTo (dynToIface (w.getVal vTy vSt2)), none)
                    else
                      -- The source intends to run the freshly computed
                      -- plan here, but the two-value type assertion at
                      -- the re-plan site shadows it: when the fresh
                      -- plan is not of the assign-to type, the branch
                      -- calls Scan on the nil assign-to plan the
                      -- failed assertion produced, and that Scan
                      -- dereferences its nil DataType before touching
                      -- dst: a runtime panic for every format code.
                      match planScan w ci oid fmt dstTy dst2 with
                      | some (.scanPlanDataTypeAssignTo _) => (dst2, some assignToErr)
                      | some _ => (dst2, some .panicNilDataType)
                      | none => (dst2, some .panicNilPlan)
    | .scanPlanSQLScanner =>
        if ¬ satSQLScanner w dstTy then (dst, some .panicTypeAssert)
        else
          match src with
          | none => w.sqlScan dstTy dst none
          | some b =>
              if fmt = BinaryFormatCode then
                w.sqlScan dstTy dst (some (.bytes, .vBytes (some b)))
              else
                w.sqlScan dstTy dst (some (.base .kString, .vString b))
    | .scanPlanReflection =>
        match dstTy with
        | .ptr (.ptr innerTy) =>
            match src with
            | none => (.vPtrTo .vPtrNil, none)
            | some _ =>
                let elemPtr := Val.vPtrTo (zeroVal w innerTy)
                match planScan w ci oid fmt (.ptr innerTy) elemPtr with
                | some p =>
                    let out := runScanPlan w ci fuel p oid fmt src (.ptr innerTy) elemPtr
                    (.vPtrTo out.1, out.2)
                | none => (.vPtrTo elemPtr, some .panicNilPlan)
        | _ => scanUnknownType w oid fmt src fuel dstTy dst
    | .scanPlanBinaryInt64 =>
        match src with
        | none => (dst, some (.cannotScanNull dstTy))
        | some b =>
            if b.length ≠ 8 then (dst, some (.invalidLength "int8" b.length))
            else if dstTy = .ptr (.base .kInt64) then
              (.vPtrTo (.vInt (beInt64 b)), none)
            else replan
    | .scanPlanBinaryFloat32 =>
        match src with
        | none => (dst, some (.cannotScanNull dstTy))
        | some b =>
            if b.length ≠ 4 then (dst, some (.invalidLength "int4" b.length))
            else if dstTy = .ptr (.base .kFloat32) then
              (.vPtrTo (.vFloat (beNat b)), none)
            else replan
    | .scanPlanBinaryFloat64 =>
        match src with
        | none => (dst, some (.cannotScanNull dstTy))
        | some b =>
            if b.length ≠ 8 then (dst, some (.invalidLength "int8" b.length))
            else if dstTy = .ptr (.base .kFloat64) then
              (.vPtrTo (.vFloat (beNat b)), none)
            else replan
    | .scanPlanBinaryBytes =>
        if dstTy = .ptr .bytes then (.vPtrTo (.vBytes src), none) else replan
    | .scanPlanString =>
        match src with
        | none => (dst, some (.cannotScanNull dstTy))
        | some b =>
            if dstTy = .ptr (.base .kString) then (.vPtrTo (.vString b), none)
            else replan
    | .pointerPointerScanPlan dstType next =>
        if dstTy ≠ dstType then replan
        else
          match dstTy with
          | .ptr elemTy =>
              match src with
              | none => (.vPtrTo (zeroVal w elemTy), none)
              | some _ =>
                  match elemTy with
                  | .ptr innerTy =>
                      let out := runScanPlan w ci fuel next oid fmt src
                        (.ptr innerTy) (.vPtrTo (zeroVal w innerTy))
                      (.vPtrTo out.1, out.2)
                  | _ => (dst, some .panicReflect)
          | _ => (dst, some .panicReflect)
    | .baseTypeScanPlan dstType nextDstType next =>
        if dstTy ≠ dstType then replan
        else runScanPlan w ci fuel next oid fmt src nextDstType dst
    | .pointerEmptyInterfaceScanPlan c =>
        match c.decodeValue oid fmt src with
        | (_, some e) => (dst, some e)
        | (dv, none) =>
            if dstTy = .ptr .iface then (.vPtrTo (dynToIface dv), none)
            else (dst, some .panicTypeAssert)
    | .textAnyToTextScanner => w.runTextScannerPlan oid fmt src dstTy dst
    | .codecProvided run => run oid fmt src dstTy dst

/-- Re-planning: compute a fresh plan for the actual destination and run
it (the source calls ci.PlanScan and then Scan on the result; the nil
case cannot occur, see planScan_isSome). -/
def replanScan (w : World) (ci : ConnInfo) (fuel : Nat) (oid : Nat) (fmt : Int)
    (src : Wire) (dstTy : Ty) (dst : Val) : Val × Option GoErr :=
  match planScan w ci oid fmt dstTy dst with
  | some np => runScanPlan w ci fuel np oid fmt src dstTy dst
  | none => (dst, some .panicNilPlan)

/-- ConnInfo.Scan: nil destination is a no-op success, otherwise plan
and run.  The destination is a dynamic value (none = nil interface);
the result pairs the updated destination with the error. -/
def ciScan (w : World) (ci : ConnInfo) (fuel : Nat) (oid : Nat) (fmt : Int)
    (src : Wire) (dst : DynVal) : DynVal × Option GoErr :=
  match dst with
  | none => (none, none)
  | some (dstTy, dstVal) =>
      match planScan w ci oid fmt dstTy dstVal with
      | some p =>
          let out := runScanPlan w ci fuel p oid fmt src dstTy dstVal
          (some (dstTy, out.1), out.2)
      | none => (some (dstTy, dstVal), some .panicNilPlan)

/-- EncodePlan.Encode for the two adapter plans of the source; a codec
plan carries its behaviour.  derefPointerEncodePlan: a nil pointer is
the SQL NULL encoding (nil buffer, no error); otherwise encode the
pointee with the wrapped plan. -/
def runEncodePlan : EncodePlan → Ty → Val → List Nat → Option (List Nat) × Option GoErr
  | .derefPointerEncodePlan next, vTy, v, buf =>
      match v with
      | .vPtrNil => (none, none)
      | .vPtrTo inner =>
          match vTy with
          | .ptr t => runEncodePlan next t inner buf
          | _ => (none, some .panicReflect)
      | _ => (none, some .panicReflect)
  | .baseTypeEncodePlan nextTy next, _, v, buf => runEncodePlan next nextTy v buf
  | .codecProvided run, vTy, v, buf => run vTy v buf

/-- ConnInfo.Encode: nil value encodes as NULL (nil buffer, no error);
a value for which no plan exists is an error; otherwise run the plan. -/
def ciEncode (w : World) (ci : ConnInfo) (oid : Nat) (fmt : Int)
    (value : DynVal) (buf : List Nat) : Option (List Nat) × Option GoErr :=
  match value with
  | none => (none, none)
  | some (ty, v) =>
      match planEncode w ci oid fmt ty v with
      | none => (none, some .unableToEncode)
      | some p => runEncodePlan p ty v buf

/-! ### Registry histories

Arbitrary registries are reached by applying the public mutators to the
fresh registry; several claims quantify over such histories. -/

/-- The public registry mutators. -/
inductive RegOp where
  | reg (t : DTIn)
  | regDefault (vTy : Ty) (name : String)
  | prefer (t : Ty)

def applyOp (w : World) (ci : ConnInfo) : RegOp → ConnInfo
  | .reg t => registerDataType w ci t
  | .regDefault vTy name => registerDefaultPgType ci vTy name
  | .prefer t => preferAssignToForType ci t

def applyOps (w : World) (ci : ConnInfo) (ops : List RegOp) : ConnInfo :=
  ops.foldl (applyOp w) ci

/-- Whether an operation leaves the oid and name bindings of a
registered DataType alone. -/
def opKeeps (op : RegOp) (oid : Nat) (name : String) : Bool :=
  match op with
  | .reg t => !(t.oid = oid) && !(t.name = name)
  | .regDefault _ _ => true
  | .prefer _ => true

/-- A world where no outside type implements any interface and all
outside behaviour is inert; used for concrete scenarios. -/
def inertWorld : World :=
  { isBinaryDecoder := fun _ => false
    isTextDecoder := fun _ => false
    isSQLScanner := fun _ => false
    isTextScanner := fun _ => false
    isTypeValue := fun _ => false
    isBinaryEncoder := fun _ => false
    decodeBinary := fun _ _ v => (v, some (.world 0))
    decodeText := fun _ _ v => (v, some (.world 0))
    assignTo := fun _ _ _ d => (d, some (.world 0))
    getVal := fun _ _ => none
    typeName := fun _ _ => ""
    newTypeValue := fun t v => (t, v)
    structZero := fun _ => .vStruct 0
    sqlScan := fun _ d _ => (d, some (.world 0))
    runTextScannerPlan := fun _ _ _ _ d => (d, some (.world 0))
    getAssignToDstType := fun _ _ => none
    databaseSQLValue := fun _ _ => (none, some (.world 0)) }

/-- Modelled from the spec: Int8Codec (outside the excerpt) prefers the
binary format.  Its own planning behaviour never matters to the claims
settled here (the int8 fast path fires before the registry is
consulted), so this model declines every plan request. -/
def int8CodecModel : CodecV :=
  .mk BinaryFormatCode (fun _ => true) (fun _ _ _ _ => none) (fun _ _ _ => none)
    (fun _ _ _ => (none, some (.world 1))) (fun _ _ _ => (none, some (.world 1)))

/-- A registry with the int8 DataType registered, as NewConnInfo does. -/
def int8Registry : ConnInfo :=
  registerDataType inertWorld emptyConnInfo
    { value? := none, codec? := some int8CodecModel, name := "int8", oid := Int8OID }

/-- C1: with the int8 type registered, scanning oid 20 in binary format
into an out-int64 takes the binary fast path: a non-nil src of length 8
stores the big-endian two's-complement reading into the destination
with no error, and a non-nil src of any other length yields the
invalid-length error and leaves the destination unchanged. -/
theorem spec_C1 (w : World) (ci : ConnInfo) (fuel : Nat) (b : List Nat) (dstv : Val)
    (_hreg : ∃ dt, dataTypeForOID ci Int8OID = some dt ∧ dt.name = "int8") :
    (b.length = 8 →
      ciScan w ci (fuel + 1) Int8OID BinaryFormatCode (some b)
          (some (.ptr (.base .kInt64), dstv))
        = (some (.ptr (.base .kInt64), .vPtrTo (.vInt (beInt64 b))), none))
    ∧ (b.length ≠ 8 →
      ciScan w ci (fuel + 1) Int8OID BinaryFormatCode (some b)
          (some (.ptr (.base .kInt64), dstv))
        = (some (.ptr (.base .kInt64), dstv), some (.invalidLength "int8" b.length))) := by
  have hplan : planScan w ci Int8OID BinaryFormatCode (.ptr (.base .kInt64)) dstv
      = some .scanPlanBinaryInt64 := rfl
  constructor
  · intro h8
    simp [ciScan, hplan, runScanPlan, h8]
  · intro h8
    simp [ciScan, hplan, runScanPlan, h8]

/-- Witness for C1 at src = 00 00 00 00 00 00 00 2A: the destination
becomes 42; and at a 2-byte src: the invalid-length error. -/
theorem spec_C1_witness :
    (∃ dt, dataTypeForOID int8Registry Int8OID = some dt ∧ dt.name = "int8")
    ∧ ciScan inertWorld int8Registry 1 Int8OID BinaryFormatCode
        (some [0, 0, 0, 0, 0, 0, 0, 42])
        (some (.ptr (.base .kInt64), .vPtrTo (.vInt 0)))
      = (some (.ptr (.base .kInt64), .vPtrTo (.vInt 42)), none)
    ∧ ciScan inertWorld int8Registry 1 Int8OID BinaryFormatCode (some [1, 2])
        (some (.ptr (.base .kInt64), .vPtrTo (.vInt 7)))
      = (some (.ptr (.base .kInt64), .vPtrTo (.vInt 7)),
         some (.invalidLength "int8" 2)) := by
  refine ⟨⟨mkDataType inertWorld
      { value? := none, codec? := some int8CodecModel, name := "int8", oid := Int8OID },
      rfl, rfl⟩, ?_, ?_⟩
  · have h := (spec_C1 inertWorld int8Registry 0 [0, 0, 0, 0, 0, 0, 0, 42] (.vPtrTo (.vInt 0))
      ⟨mkDataType inertWorld
        { value? := none, codec? := some int8CodecModel, name := "int8", oid := Int8OID },
        rfl, rfl⟩).1 rfl
    simpa [beInt64, beNat] using h
  · exact (spec_C1 inertWorld int8Registry 0 [1, 2] (.vPtrTo (.vInt 7))
      ⟨mkDataType inertWorld
        { value? := none, codec? := some int8CodecModel, name := "int8", oid := Int8OID },
        rfl, rfl⟩).2 (by decide)

/-- C10: with a nil src, the byte-slice fast-path plan succeeds and
stores the nil slice in the out-byte-slice destination, while the
string fast-path plan fails with the cannot-scan-null error for an
out-string destination; followed by the same two behaviours end to end
through ConnInfo.Scan. -/
theorem spec_C10 (w : World) (ci : ConnInfo) (fuel : Nat) (oid : Nat) (fmt : Int)
    (old old2 : Val) :
    runScanPlan w ci (fuel + 1) .scanPlanBinaryBytes oid fmt none (.ptr .bytes) old
      = (.vPtrTo (.vBytes none), none)
    ∧ runScanPlan w ci (fuel + 1) .scanPlanString oid fmt none
        (.ptr (.base .kString)) old2
      = (old2, some (.cannotScanNull (.ptr (.base .kString))))
    ∧ ciScan inertWorld emptyConnInfo 1 ByteaOID BinaryFormatCode none
        (some (.ptr .bytes, .vPtrTo (.vBytes (some [1]))))
      = (some (.ptr .bytes, .vPtrTo (.vBytes none)), none)
    ∧ ciScan inertWorld emptyConnInfo 1 TextOID BinaryFormatCode none
        (some (.ptr (.base .kString), .vPtrTo (.vString [104])))
      = (some (.ptr (.base .kString), .vPtrTo (.vString [104])),
         some (.cannotScanNull (.ptr (.base .kString)))) := by
  refine ⟨?_, ?_, by decide, by decide⟩
  · simp [runScanPlan]
  · simp [runScanPlan]

/-- Modelled from the spec: TextCodec (outside the excerpt).  Only its
declining of indirect destinations matters to the scenario settled here
(the out-string and out-byte-slice shapes are taken by the fast paths
before the registry is consulted), so it declines every plan request. -/
def textCodecModel : CodecV :=
  .mk TextFormatCode (fun _ => true) (fun _ _ _ _ => none) (fun _ _ _ => none)
    (fun _ _ _ => (none, some (.world 2))) (fun _ _ _ => (none, some (.world 2)))

/-- A registry with the text DataType registered, as NewConnInfo does. -/
def textRegistry : ConnInfo :=
  registerDataType inertWorld emptyConnInfo
    { value? := none, codec? := some textCodecModel, name := "text", oid := TextOID }

/-- C3: a pointer-pointer scan plan built for destination type T, run
on a destination of exactly type T: a nil src sets the inner pointer to
nil and succeeds without consulting the wrapped plan (the result does
not depend on next); a non-nil src installs a fresh inner value and
delegates scanning it to the wrapped plan.  The last conjunct is the
end-to-end scenario: scanning oid 25 / text / NULL into a double
pointer to string sets the inner pointer to nil. -/
theorem spec_C3 (w : World) (ci : ConnInfo) (fuel : Nat) (innerTy : Ty)
    (next : ScanPlan) (oid : Nat) (fmt : Int) (dstv : Val) :
    runScanPlan w ci (fuel + 1) (.pointerPointerScanPlan (.ptr (.ptr innerTy)) next)
        oid fmt none (.ptr (.ptr innerTy)) dstv
      = (.vPtrTo .vPtrNil, none)
    ∧ (∀ b : List Nat,
        runScanPlan w ci (fuel + 1) (.pointerPointerScanPlan (.ptr (.ptr innerTy)) next)
            oid fmt (some b) (.ptr (.ptr innerTy)) dstv
          = (.vPtrTo (runScanPlan w ci fuel next oid fmt (some b)
                (.ptr innerTy) (.vPtrTo (zeroVal w innerTy))).1,
             (runScanPlan w ci fuel next oid fmt (some b)
                (.ptr innerTy) (.vPtrTo (zeroVal w innerTy))).2))
    ∧ ciScan inertWorld textRegistry 2 TextOID TextFormatCode none
        (some (.ptr (.ptr (.base .kString)), .vPtrTo (.vPtrTo (.vString [104]))))
      = (some (.ptr (.ptr (.base .kString)), .vPtrTo .vPtrNil), none) := by
  refine ⟨?_, ?_, by decide⟩
  · simp [runScanPlan, zeroVal]
  · intro b
    simp [runScanPlan]

/-- C9 counterexample: the fast-path plans validate src before the
destination type check, so a mismatched plan is not always equivalent
to re-planning.  scanPlanString is the plan PlanScan returns for an
out-string at oid 25 / text format; invoked on an out-byte-slice with a
nil src it fails with cannot-scan-null, while the freshly computed plan
for that destination (scanPlanBinaryBytes) succeeds and stores the nil
slice. -/
theorem spec_C9_counterexample :
    planScan inertWorld emptyConnInfo TextOID TextFormatCode
        (.ptr (.base .kString)) (.vPtrTo (.vString []))
      = some .scanPlanString
    ∧ planScan inertWorld emptyConnInfo TextOID TextFormatCode
        (.ptr .bytes) (.vPtrTo (.vBytes none))
      = some .scanPlanBinaryBytes
    ∧ runScanPlan inertWorld emptyConnInfo 3 .scanPlanString TextOID TextFormatCode
        none (.ptr .bytes) (.vPtrTo (.vBytes none))
      = (.vPtrTo (.vBytes none), some (.cannotScanNull (.ptr .bytes)))
    ∧ runScanPlan inertWorld emptyConnInfo 3 .scanPlanBinaryBytes TextOID
        TextFormatCode none (.ptr .bytes) (.vPtrTo (.vBytes none))
      = (.vPtrTo (.vBytes none), none)
    ∧ runScanPlan inertWorld emptyConnInfo 3 .scanPlanString TextOID TextFormatCode
        none (.ptr .bytes) (.vPtrTo (.vBytes none))
      ≠ runScanPlan inertWorld emptyConnInfo 3 .scanPlanBinaryBytes TextOID
        TextFormatCode none (.ptr .bytes) (.vPtrTo (.vBytes none)) :=
  ⟨rfl, rfl, by decide, by decide, by decide⟩

/-- C9 as amended: a plan invoked on a destination that does not match
the type (or capability) it was selected for re-plans, producing
exactly the freshly planned scan, once the plan reaches its dispatch
check; for the fast-path plans that validate src first this means a
non-nil src of the expected length.  One conjunct per plan type cited
by the claim, plus the string fast path. -/
theorem spec_C9 (w : World) (ci : ConnInfo) (fuel : Nat) (oid : Nat) (fmt : Int) :
    (∀ (b : List Nat) (dstTy : Ty) (dst : Val), b.length = 8 →
        dstTy ≠ .ptr (.base .kInt64) →
        runScanPlan w ci (fuel + 1) .scanPlanBinaryInt64 oid fmt (some b) dstTy dst
          = replanScan w ci fuel oid fmt (some b) dstTy dst)
    ∧ (∀ (b : List Nat) (dstTy : Ty) (dst : Val), dstTy ≠ .ptr (.base .kString) →
        runScanPlan w ci (fuel + 1) .scanPlanString oid fmt (some b) dstTy dst
          = replanScan w ci fuel oid fmt (some b) dstTy dst)
    ∧ (∀ (src : Wire) (dstTy : Ty) (dst : Val), dstTy ≠ .ptr .bytes →
        runScanPlan w ci (fuel + 1) .scanPlanBinaryBytes oid fmt src dstTy dst
          = replanScan w ci fuel oid fmt src dstTy dst)
    ∧ (∀ (src : Wire) (T : Ty) (next : ScanPlan) (dstTy : Ty) (dst : Val), dstTy ≠ T →
        runScanPlan w ci (fuel + 1) (.pointerPointerScanPlan T next) oid fmt src dstTy dst
          = replanScan w ci fuel oid fmt src dstTy dst)
    ∧ (∀ (src : Wire) (T T2 : Ty) (next : ScanPlan) (dstTy : Ty) (dst : Val), dstTy ≠ T →
        runScanPlan w ci (fuel + 1) (.baseTypeScanPlan T T2 next) oid fmt src dstTy dst
          = replanScan w ci fuel oid fmt src dstTy dst)
    ∧ (∀ (src : Wire) (dstTy : Ty) (dst : Val), satBinaryDecoder w dstTy = false →
        runScanPlan w ci (fuel + 1) .scanPlanDstBinaryDecoder oid fmt src dstTy dst
          = replanScan w ci fuel oid fmt src dstTy dst) := by
  refine ⟨?_, ?_, ?_, ?_, ?_, ?_⟩
  · intro b dstTy dst h8 hne
    simp [runScanPlan, replanScan, h8, hne]
  · intro b dstTy dst hne
    simp [runScanPlan, replanScan, hne]
  · intro src dstTy dst hne
    simp [runScanPlan, replanScan, hne]
  · intro src T next dstTy dst hne
    simp [runScanPlan, replanScan, hne]
  · intro src T T2 next dstTy dst hne
    simp [runScanPlan, replanScan, hne]
  · intro src dstTy dst hcap
    simp [runScanPlan, replanScan, hcap]

/-- Witness for C9 as amended: the int64 fast-path plan on a mismatched
out-byte-slice destination with a valid 8-byte src equals the freshly
planned scan. -/
theorem spec_C9_witness :
    runScanPlan inertWorld emptyConnInfo 3 .scanPlanBinaryInt64 Int8OID
        BinaryFormatCode (some [0, 0, 0, 0, 0, 0, 0, 1]) (.ptr .bytes)
        (.vPtrTo (.vBytes none))
      = replanScan inertWorld emptyConnInfo 2 Int8OID BinaryFormatCode
        (some [0, 0, 0, 0, 0, 0, 0, 1]) (.ptr .bytes) (.vPtrTo (.vBytes none)) :=
  (spec_C9 inertWorld emptyConnInfo 2 Int8OID BinaryFormatCode).1
    [0, 0, 0, 0, 0, 0, 0, 1] (.ptr .bytes) (.vPtrTo (.vBytes none))
    (by decide) (by decide)

/-- A world exercising the assign-to fallback paths: the pointer type
to the struct type V is a binary decoder whose decode succeeds without
changing state, and its AssignTo always fails with error world 7. -/
def c2World : World :=
  { inertWorld with
    isBinaryDecoder := fun t => t = .ptr (.structT "V")
    decodeBinary := fun _ _ v => (v, none)
    assignTo := fun _ _ _ d => (d, some (.world 7))
    getVal := fun _ v => some (.ptr (.structT "V"), v) }

/-- A DataType with a Value of type pointer to V and no codec, so its
scan plan is the assign-to plan. -/
def c2DataType : DataType :=
  mkDataType c2World
    { value? := some (.ptr (.structT "V"), .vPtrTo (.vStruct 0)), codec? := none,
      name := "v", oid := 9 }

/-- A registry with c2DataType registered at oid 9. -/
def c2Registry : ConnInfo :=
  registerDataType c2World emptyConnInfo
    { value? := some (.ptr (.structT "V"), .vPtrTo (.vStruct 0)), codec? := none,
      name := "v", oid := 9 }

/-- C2 (code bug), evaluating the assign-to plan with decode succeeding
and AssignTo failing.  The first two behaviours the claim states hold:
a pointer-to-any destination receives Value.Get and the plan succeeds,
and when the freshly computed plan is again of the assign-to type the
original AssignTo error is returned.  But the third does not: at the
failing input (oid 17, binary format, destination out-byte-slice) the
fresh plan is scanPlanBinaryBytes, not the assign-to type, and instead
of running it the source invokes Scan on the nil assign-to plan left by
the shadowed type assertion, panicking on its nil DataType — while the
fresh plan itself would have succeeded, storing the src bytes. -/
theorem spec_C2 :
    runScanPlan c2World c2Registry 2 (.scanPlanDataTypeAssignTo c2DataType) 9
        BinaryFormatCode (some [1]) (.ptr .iface) (.vPtrTo .vIfaceNil)
      = (.vPtrTo (.vIface (.ptr (.structT "V")) (.vPtrTo (.vStruct 0))), none)
    ∧ runScanPlan c2World c2Registry 2 (.scanPlanDataTypeAssignTo c2DataType) 9
        BinaryFormatCode (some [1]) (.ptr (.structT "W")) (.vPtrTo (.vStruct 5))
      = (.vPtrTo (.vStruct 5), some (.world 7))
    ∧ planScan c2World c2Registry ByteaOID BinaryFormatCode (.ptr .bytes)
        (.vPtrTo (.vBytes none))
      = some .scanPlanBinaryBytes
    ∧ runScanPlan c2World c2Registry 2 (.scanPlanDataTypeAssignTo c2DataType)
        ByteaOID BinaryFormatCode (some [1]) (.ptr .bytes) (.vPtrTo (.vBytes none))
      = (.vPtrTo (.vBytes none), some .panicNilDataType)
    ∧ runScanPlan c2World c2Registry 2 .scanPlanBinaryBytes ByteaOID
        BinaryFormatCode (some [1]) (.ptr .bytes) (.vPtrTo (.vBytes none))
      = (.vPtrTo (.vBytes (some [1])), none) :=
  ⟨by decide, by decide, rfl, by decide, by decide⟩

/-- C6: encoding the SQL NULL value appends nothing and returns the nil
buffer with no error — both for the nil value itself and for a nil
pointer whose plan is the pointer-deref adapter. -/
theorem spec_C6 (w : World) (ci : ConnInfo) (oid : Nat) (fmt : Int) (buf : List Nat) :
    ciEncode w ci oid fmt none buf = (none, none)
    ∧ (∀ (t : Ty) (next : EncodePlan),
        planEncode w ci oid fmt (.ptr t) .vPtrNil = some (.derefPointerEncodePlan next) →
        ciEncode w ci oid fmt (some (.ptr t, .vPtrNil)) buf = (none, none)) := by
  constructor
  · rfl
  · intro t next h
    simp [ciEncode, h, runEncodePlan]

/-- The run function of the codec used by the C6 witness. -/
def c6Run : Ty → Val → List Nat → Option (List Nat) × Option GoErr :=
  fun _ _ buf => (some buf, none)

/-- The codec used by the C6 witness: plans encodes of the base int64
type only, so a pointer value gets the pointer-deref adapter. -/
def c6Codec : CodecV :=
  .mk BinaryFormatCode (fun _ => true) (fun _ _ _ _ => none)
    (fun _ _ ty => if ty = .base .kInt64 then some (.codecProvided c6Run) else none)
    (fun _ _ _ => (none, none)) (fun _ _ _ => (none, none))

/-- The registry used by the C6 witness. -/
def c6Registry : ConnInfo :=
  registerDataType inertWorld emptyConnInfo
    { value? := none, codec? := some c6Codec, name := "int8", oid := Int8OID }

/-- Witness for C6: the nil value, and a nil out-int64 pointer whose
plan is the pointer-deref adapter, both encode to (nil, nil). -/
theorem spec_C6_witness :
    ciEncode inertWorld c6Registry Int8OID BinaryFormatCode none [7] = (none, none)
    ∧ planEncode inertWorld c6Registry Int8OID BinaryFormatCode
        (.ptr (.base .kInt64)) .vPtrNil
      = some (.derefPointerEncodePlan (.codecProvided c6Run))
    ∧ ciEncode inertWorld c6Registry Int8OID BinaryFormatCode
        (some (.ptr (.base .kInt64), .vPtrNil)) [7]
      = (none, none) :=
  ⟨(spec_C6 inertWorld c6Registry Int8OID BinaryFormatCode [7]).1, rfl,
   (spec_C6 inertWorld c6Registry Int8OID BinaryFormatCode [7]).2
     (.base .kInt64) (.codecProvided c6Run) rfl⟩

/-- A planning step always finds a plan, whatever the recursive call
returns: every branch ends in a concrete plan (the sql.Scanner or
reflection fallbacks when nothing else applies). -/
theorem planScanStep_isSome (w : World) (ci : ConnInfo)
    (rec : Nat → Int → Ty → Val → Option ScanPlan) (oid : Nat)
    (fmt : Int) (dstTy : Ty) (dstv : Val) :
    (planScanStep w ci rec oid fmt dstTy dstv).isSome := by
  unfold planScanStep planScanDtTail
  repeat' split <;> try rfl

/-- PlanScan with any nonzero budget always finds a plan. -/
theorem planScanFuel_isSome (w : World) (ci : ConnInfo) (fuel : Nat) (oid : Nat)
    (fmt : Int) (dstTy : Ty) (dstv : Val) :
    (planScanFuel w ci (fuel + 1) oid fmt dstTy dstv).isSome :=
  planScanStep_isSome w ci (planScanFuel w ci fuel) oid fmt dstTy dstv

theorem sizeTy_pos (t : Ty) : 1 ≤ sizeTy t := by
  cases t <;> simp [sizeTy]

/-- The codec block only consults the recursive planner at strictly
smaller destination types. -/
theorem planScanCodecBlock_congr (w : World)
    (rec1 rec2 : Nat → Int → Ty → Val → Option ScanPlan)
    (oid : Nat) (fmt : Int) (dstTy : Ty) (dstVal : Val) (c : CodecV)
    (h : ∀ (oid2 : Nat) (fmt2 : Int) (t : Ty) (v2 : Val),
        sizeTy t < sizeTy dstTy → rec1 oid2 fmt2 t v2 = rec2 oid2 fmt2 t v2) :
    planScanCodecBlock w rec1 oid fmt dstTy dstVal c
      = planScanCodecBlock w rec2 oid fmt dstTy dstVal c := by
  unfold planScanCodecBlock
  cases hcp : c.planScan oid fmt dstTy false with
  | some p => rfl
  | none =>
      cases dstTy with
      | ptr t2 =>
          cases t2 with
          | ptr t3 =>
              dsimp only
              rw [h oid fmt (.ptr t3) (zeroVal w (.ptr t3)) (by simp [sizeTy])]
          | named n k =>
              dsimp only
              rw [h oid fmt (.ptr (.base k)) dstVal (by simp [sizeTy])]
          | base k => rfl
          | bool => rfl
          | bytes => rfl
          | iface => rfl
          | structT n => rfl
      | base k => rfl
      | named n k => rfl
      | bool => rfl
      | bytes => rfl
      | iface => rfl
      | structT n => rfl

/-- A planning step is determined by what the recursive planner answers
at strictly smaller destination types. -/
theorem planScanStep_congr (w : World) (ci : ConnInfo)
    (rec1 rec2 : Nat → Int → Ty → Val → Option ScanPlan)
    (oid : Nat) (fmt : Int) (dstTy : Ty) (dstVal : Val)
    (h : ∀ (oid2 : Nat) (fmt2 : Int) (t : Ty) (v2 : Val),
        sizeTy t < sizeTy dstTy → rec1 oid2 fmt2 t v2 = rec2 oid2 fmt2 t v2) :
    planScanStep w ci rec1 oid fmt dstTy dstVal
      = planScanStep w ci rec2 oid fmt dstTy dstVal := by
  unfold planScanStep
  cases hfast : planScanFast w oid fmt dstTy with
  | some p => rfl
  | none =>
      cases hdt : (if oid = 0 then (dataTypeForValue w ci dstTy dstVal).1
          else dataTypeForOID ci oid) with
      | none => rfl
      | some dt =>
          dsimp only
          cases hc : dt.codec? with
          | none => rfl
          | some c =>
              dsimp only
              rw [planScanCodecBlock_congr w rec1 rec2 oid fmt dstTy dstVal c h]

/-- The explicit budget is irrelevant beyond the size of the
destination type: any two sufficient budgets plan identically, so
planScan (budget sizeTy + 1) computes the unbounded recursion of the
source. -/
theorem planScanFuel_stable (w : World) (ci : ConnInfo) :
    ∀ (n : Nat) (dstTy : Ty), sizeTy dstTy ≤ n →
    ∀ (m : Nat), sizeTy dstTy ≤ m →
    ∀ (oid : Nat) (fmt : Int) (dstv : Val),
    planScanFuel w ci (m + 1) oid fmt dstTy dstv
      = planScanFuel w ci (n + 1) oid fmt dstTy dstv := by
  intro n
  induction n using Nat.strong_induction_on with
  | _ n ih =>
      intro dstTy hn m hm oid fmt dstv
      show planScanStep w ci (planScanFuel w ci m) oid fmt dstTy dstv
        = planScanStep w ci (planScanFuel w ci n) oid fmt dstTy dstv
      apply planScanStep_congr
      intro oid2 fmt2 t v2 ht
      obtain ⟨m2, rfl⟩ : ∃ m2, m = m2 + 1 :=
        ⟨m - 1, by omega⟩
      obtain ⟨n2, rfl⟩ : ∃ n2, n = n2 + 1 :=
        ⟨n - 1, by omega⟩
      have hm2 : sizeTy t ≤ m2 := by omega
      have hn2 : sizeTy t ≤ n2 := by omega
      calc planScanFuel w ci (m2 + 1) oid2 fmt2 t v2
          = planScanFuel w ci (sizeTy t + 1) oid2 fmt2 t v2 :=
            ih (sizeTy t) (by omega) t le_rfl m2 hm2 oid2 fmt2 v2
        _ = planScanFuel w ci (n2 + 1) oid2 fmt2 t v2 :=
            (ih (sizeTy t) (by omega) t le_rfl n2 hn2 oid2 fmt2 v2).symm

/-- Any sufficient budget agrees with ConnInfo.PlanScan. -/
theorem planScanFuel_eq_planScan (w : World) (ci : ConnInfo) (fuel : Nat)
    (oid : Nat) (fmt : Int) (dstTy : Ty) (dstv : Val)
    (h : sizeTy dstTy ≤ fuel) :
    planScanFuel w ci (fuel + 1) oid fmt dstTy dstv
      = planScan w ci oid fmt dstTy dstv :=
  planScanFuel_stable w ci (sizeTy dstTy) dstTy le_rfl fuel h oid fmt dstv

/-- C8: PlanScan always returns a plan (so ConnInfo.Scan never invokes
a nil plan), while PlanEncode may return none, which ConnInfo.Encode
turns into the unable-to-encode error. -/
theorem spec_C8 (w : World) (ci : ConnInfo) :
    (∀ (oid : Nat) (fmt : Int) (dstTy : Ty) (dstv : Val),
        (planScan w ci oid fmt dstTy dstv).isSome)
    ∧ (∀ (oid : Nat) (fmt : Int) (vTy : Ty) (v : Val) (buf : List Nat),
        planEncode w ci oid fmt vTy v = none →
        ciEncode w ci oid fmt (some (vTy, v)) buf = (none, some .unableToEncode)) := by
  constructor
  · intro oid fmt dstTy dstv
    exact planScanFuel_isSome w ci (sizeTy dstTy) oid fmt dstTy dstv
  · intro oid fmt vTy v buf h
    simp [ciEncode, h]

/-- Witness for C8: a plan exists even for an unhandled destination on
the empty registry, and an unencodable value yields the error. -/
theorem spec_C8_witness :
    (planScan inertWorld emptyConnInfo 0 5 .iface .vIfaceNil).isSome
    ∧ ciEncode inertWorld emptyConnInfo 1 1 (some (.bool, .vBool true)) []
      = (none, some .unableToEncode) :=
  ⟨(spec_C8 inertWorld emptyConnInfo).1 0 5 .iface .vIfaceNil,
   (spec_C8 inertWorld emptyConnInfo).2 1 1 .bool (.vBool true) [] rfl⟩

/-- C7: registration is a total function (never fails); a duplicate
registration overwrites the previous binding; and registering the same
DataType twice in succession leaves the registry equal — hence
observationally equal on DataTypeForOID, DataTypeForName,
DataTypeForValue and FormatCodeForOID — to registering it once. -/
theorem spec_C7 (w : World) (ci : ConnInfo) (t : DTIn) :
    registerDataType w (registerDataType w ci t) t = registerDataType w ci t
    ∧ dataTypeForOID (registerDataType w ci t) t.oid = some (mkDataType w t)
    ∧ dataTypeForName (registerDataType w ci t) t.name = some (mkDataType w t)
    ∧ (∀ oid, dataTypeForOID (registerDataType w (registerDataType w ci t) t) oid
        = dataTypeForOID (registerDataType w ci t) oid)
    ∧ (∀ name, dataTypeForName (registerDataType w (registerDataType w ci t) t) name
        = dataTypeForName (registerDataType w ci t) name)
    ∧ (∀ (vTy : Ty) (v : Val),
        (dataTypeForValue w (registerDataType w (registerDataType w ci t) t) vTy v).1
          = (dataTypeForValue w (registerDataType w ci t) vTy v).1)
    ∧ (∀ oid, formatCodeForOID (registerDataType w (registerDataType w ci t) t) oid
        = formatCodeForOID (registerDataType w ci t) oid) := by
  have hstate : registerDataType w (registerDataType w ci t) t = registerDataType w ci t := by
    simp [registerDataType, insertA_insertA_same]
  refine ⟨hstate, ?_, ?_, ?_, ?_, ?_, ?_⟩
  · exact lookupA_insertA_self _ _ _
  · exact lookupA_insertA_self _ _ _
  · intro oid; rw [hstate]
  · intro name; rw [hstate]
  · intro vTy v; rw [hstate]
  · intro oid; rw [hstate]

/-- Each mutator preserves a binding in the oid and name indices that
it does not touch. -/
theorem applyOp_keeps (w : World) (ci : ConnInfo) (op : RegOp) (oid : Nat)
    (name : String) (dt : DataType)
    (hk : opKeeps op oid name = true)
    (h1 : lookupA ci.oidToDataType oid = some dt)
    (h2 : lookupA ci.nameToDataType name = some dt) :
    lookupA (applyOp w ci op).oidToDataType oid = some dt
    ∧ lookupA (applyOp w ci op).nameToDataType name = some dt := by
  cases op with
  | reg t =>
      simp only [opKeeps, Bool.and_eq_true, Bool.not_eq_true', decide_eq_false_iff_not] at hk
      constructor
      · rw [show (applyOp w ci (.reg t)).oidToDataType
            = insertA ci.oidToDataType t.oid (mkDataType w t) from rfl]
        rw [lookupA_insertA, if_neg (fun h => hk.1 h.symm)]
        exact h1
      · rw [show (applyOp w ci (.reg t)).nameToDataType
            = insertA ci.nameToDataType t.name (mkDataType w t) from rfl]
        rw [lookupA_insertA, if_neg (fun h => hk.2 h.symm)]
        exact h2
  | regDefault vTy n => exact ⟨h1, h2⟩
  | prefer t => exact ⟨h1, h2⟩

/-- A sequence of mutators that touch neither the oid nor the name of a
binding preserves it in both indices. -/
theorem applyOps_keeps (w : World) (ops : List RegOp) :
    ∀ (ci : ConnInfo) (oid : Nat) (name : String) (dt : DataType),
    (ops.all fun op => opKeeps op oid name) = true →
    lookupA ci.oidToDataType oid = some dt →
    lookupA ci.nameToDataType name = some dt →
    lookupA (applyOps w ci ops).oidToDataType oid = some dt
    ∧ lookupA (applyOps w ci ops).nameToDataType name = some dt := by
  induction ops with
  | nil => intro ci oid name dt _ h1 h2; exact ⟨h1, h2⟩
  | cons op rest ih =>
      intro ci oid name dt hall h1 h2
      rw [List.all_cons, Bool.and_eq_true] at hall
      have hstep := applyOp_keeps w ci op oid name dt hall.1 h1 h2
      exact ih (applyOp w ci op) oid name dt hall.2 hstep.1 hstep.2

/-- C4: after RegisterDataType(t), as long as no later registration
shares the oid or the name, DataTypeForOID(t.OID) and
DataTypeForName(t.Name) both find the same registered record. -/
theorem spec_C4 (w : World) (ci : ConnInfo) (t : DTIn) (post : List RegOp)
    (hpost : (post.all fun op => opKeeps op t.oid t.name) = true) :
    dataTypeForOID (applyOps w (registerDataType w ci t) post) t.oid
      = some (mkDataType w t)
    ∧ dataTypeForName (applyOps w (registerDataType w ci t) post) t.name
      = some (mkDataType w t) :=
  applyOps_keeps w post (registerDataType w ci t) t.oid t.name (mkDataType w t)
    hpost (lookupA_insertA_self _ _ _) (lookupA_insertA_self _ _ _)

/-- Witness for C4: a registration followed by an unrelated
registration, a default-type registration and a prefer marking still
finds the original record under both keys. -/
theorem spec_C4_witness :
    dataTypeForOID
        (applyOps inertWorld
          (registerDataType inertWorld emptyConnInfo
            { value? := none, codec? := none, name := "mytype", oid := 77 })
          [.reg { value? := none, codec? := none, name := "other", oid := 78 },
           .regDefault .bool "x", .prefer .bool]) 77
      = some (mkDataType inertWorld
          { value? := none, codec? := none, name := "mytype", oid := 77 })
    ∧ dataTypeForName
        (applyOps inertWorld
          (registerDataType inertWorld emptyConnInfo
            { value? := none, codec? := none, name := "mytype", oid := 77 })
          [.reg { value? := none, codec? := none, name := "other", oid := 78 },
           .regDefault .bool "x", .prefer .bool]) "mytype"
      = some (mkDataType inertWorld
          { value? := none, codec? := none, name := "mytype", oid := 77 }) :=
  spec_C4 inertWorld emptyConnInfo
    { value? := none, codec? := none, name := "mytype", oid := 77 }
    [.reg { value? := none, codec? := none, name := "other", oid := 78 },
     .regDefault .bool "x", .prefer .bool] (by decide)

/-- Invariants every mutator-built registry enjoys: the derived index
is absent (every index-changing mutator invalidates it and the fresh
registry starts without one), the native-type-to-name map has unique
keys, and a name-index binding carries its own key as its Name. -/
structure RegistryInv (ci : ConnInfo) : Prop where
  derivedNone : ci.reflectTypeToDataType = none
  uniqNames : uniqKeys ci.reflectTypeToName
  nameConsistent : ∀ n dt, lookupA ci.nameToDataType n = some dt → dt.name = n

theorem registryInv_empty : RegistryInv emptyConnInfo := by
  refine ⟨rfl, List.Pairwise.nil, ?_⟩
  intro n dt h
  simp [emptyConnInfo, lookupA] at h

theorem registryInv_applyOp (w : World) (ci : ConnInfo) (op : RegOp)
    (h : RegistryInv ci) : RegistryInv (applyOp w ci op) := by
  cases op with
  | reg t =>
      refine ⟨rfl, h.uniqNames, ?_⟩
      intro n dt hl
      rw [show (applyOp w ci (.reg t)).nameToDataType
          = insertA ci.nameToDataType t.name (mkDataType w t) from rfl,
        lookupA_insertA] at hl
      by_cases hn : n = t.name
      · rw [if_pos hn] at hl
        cases hl
        exact hn.symm
      · rw [if_neg hn] at hl
        exact h.nameConsistent n dt hl
  | regDefault vTy name =>
      exact ⟨rfl, uniqKeys_insertA _ _ _ h.uniqNames, h.nameConsistent⟩
  | prefer t =>
      exact ⟨h.derivedNone, h.uniqNames, h.nameConsistent⟩

theorem registryInv_applyOps (w : World) (ops : List RegOp) :
    ∀ ci : ConnInfo, RegistryInv ci → RegistryInv (applyOps w ci ops) := by
  induction ops with
  | nil => intro ci h; exact h
  | cons op rest ih =>
      intro ci h
      exact ih (applyOp w ci op) (registryInv_applyOp w ci op h)

/-- The overlay fold of buildReflectTypeToDataType does not change the
binding of a key that none of its entries mentions. -/
theorem lookupA_overlay_notmem (g : String → Option DataType)
    (l : List (Ty × String)) (m : List (Ty × DataType)) (k : Ty)
    (hk : ∀ p ∈ l, p.1 ≠ k) :
    lookupA (l.foldl (fun m kv =>
        match g kv.2 with
        | some dt => insertA m kv.1 dt
        | none => m) m) k = lookupA m k := by
  induction l generalizing m with
  | nil => rfl
  | cons hd tl ih =>
      obtain ⟨k0, n0⟩ := hd
      have hk0 : k0 ≠ k := hk (k0, n0) (List.mem_cons_self _ _)
      have htl : ∀ p ∈ tl, p.1 ≠ k := fun p hp => hk p (List.mem_cons_of_mem _ hp)
      rw [List.foldl_cons]
      rw [ih _ htl]
      cases hg : g n0 with
      | none => rfl
      | some dt => exact lookupA_insertA_ne m k0 k dt (fun h => hk0 h.symm)

/-- The overlay fold resolves a uniquely keyed entry through the name
index: the key ends up bound to the resolved DataType, whatever was
there before. -/
theorem lookupA_overlay_mem (g : String → Option DataType)
    (l : List (Ty × String)) (k : Ty) (name : String) (dtn : DataType)
    (huniq : uniqKeys l) (hl : lookupA l k = some name) (hg : g name = some dtn) :
    ∀ m : List (Ty × DataType),
    lookupA (l.foldl (fun m kv =>
        match g kv.2 with
        | some dt => insertA m kv.1 dt
        | none => m) m) k = some dtn := by
  induction l with
  | nil => intro m; simp [lookupA] at hl
  | cons hd tl ih =>
      intro m
      obtain ⟨k0, n0⟩ := hd
      obtain ⟨hhd, htl⟩ := List.pairwise_cons.mp huniq
      rw [List.foldl_cons]
      by_cases hk : k = k0
      · subst hk
        rw [lookupA, if_pos rfl] at hl
        cases hl
        have hnot : ∀ p ∈ tl, p.1 ≠ k := fun p hp h => hhd p hp h.symm
        rw [lookupA_overlay_notmem g tl _ k hnot]
        simp only
        rw [hg]
        exact lookupA_insertA_self m k dtn
      · rw [lookupA, if_neg hk] at hl
        exact ih htl hl _

/-- C5 as amended: for a mutator-built registry on which
RegisterDefaultPgType for native type vTy resolved last to name (that
is, the native-type-to-name index maps vTy to name), with name present
in the name index, DataTypeForValue on a value of type vTy — provided
vTy does not implement TypeValue — finds the DataType registered under
name, whose Name is name; and the derived index, absent on every
mutator-built registry, is rebuilt by this lookup. -/
theorem spec_C5 (w : World) (ops : List RegOp) (vTy : Ty) (v : Val)
    (name : String) (dtn : DataType)
    (hNotTV : satTypeValue w vTy = false)
    (hmap : lookupA (applyOps w emptyConnInfo ops).reflectTypeToName vTy = some name)
    (hname : lookupA (applyOps w emptyConnInfo ops).nameToDataType name = some dtn) :
    (dataTypeForValue w (applyOps w emptyConnInfo ops) vTy v).1 = some dtn
    ∧ dtn.name = name
    ∧ (applyOps w emptyConnInfo ops).reflectTypeToDataType = none
    ∧ (dataTypeForValue w (applyOps w emptyConnInfo ops) vTy v).2.reflectTypeToDataType
      = some (buildReflectTypeToDataType w (applyOps w emptyConnInfo ops)) := by
  have inv : RegistryInv (applyOps w emptyConnInfo ops) :=
    registryInv_applyOps w ops emptyConnInfo registryInv_empty
  have hbuild :
      lookupA (buildReflectTypeToDataType w (applyOps w emptyConnInfo ops)) vTy
        = some dtn :=
    lookupA_overlay_mem (lookupA (applyOps w emptyConnInfo ops).nameToDataType)
      (applyOps w emptyConnInfo ops).reflectTypeToName vTy name dtn
      inv.uniqNames hmap hname _
  refine ⟨?_, inv.nameConsistent name dtn hname, inv.derivedNone, ?_⟩
  · simp [dataTypeForValue, inv.derivedNone, hNotTV, hbuild]
  · simp [dataTypeForValue, inv.derivedNone, hNotTV]

/-- Witness for C5 as amended: register int8, declare bool to default
to it, and look a bool value up. -/
theorem spec_C5_witness :
    (dataTypeForValue inertWorld
        (applyOps inertWorld emptyConnInfo
          [.reg { value? := none, codec? := none, name := "int8", oid := Int8OID },
           .regDefault .bool "int8"]) .bool (.vBool true)).1
      = some (mkDataType inertWorld
          { value? := none, codec? := none, name := "int8", oid := Int8OID })
    ∧ (mkDataType inertWorld
        { value? := none, codec? := none, name := "int8", oid := Int8OID }).name
      = "int8" :=
  let h := spec_C5 inertWorld
    [.reg { value? := none, codec? := none, name := "int8", oid := Int8OID },
     .regDefault .bool "int8"] .bool (.vBool true) "int8"
    (mkDataType inertWorld
      { value? := none, codec? := none, name := "int8", oid := Int8OID })
    (by decide) rfl rfl
  ⟨h.1, h.2.1⟩

/-- The world of the C5 counterexample: the struct type TV implements
TypeValue and declares the type name other, regardless of the default
mapping registered for it. -/
def c5World : World :=
  { inertWorld with
    isTypeValue := fun t => t = .structT "TV"
    typeName := fun _ _ => "other" }

/-- The registry of the C5 counterexample: DataTypes named other and
mycustom, and a default mapping of the TV native type to mycustom. -/
def c5Registry : ConnInfo :=
  applyOps c5World emptyConnInfo
    [.reg { value? := none, codec? := none, name := "other", oid := 1 },
     .reg { value? := none, codec? := none, name := "mycustom", oid := 2 },
     .regDefault (.structT "TV") "mycustom"]

/-- C5 counterexample: RegisterDefaultPgType was called for the TV
native type with name mycustom (not overridden), mycustom is in the
name index — yet DataTypeForValue on a TV value does not return a
DataType named mycustom: TV implements TypeValue, so the lookup goes
through its declared TypeName (other) instead of the default mapping. -/
theorem spec_C5_counterexample :
    lookupA c5Registry.reflectTypeToName (.structT "TV") = some "mycustom"
    ∧ (∃ dtn, lookupA c5Registry.nameToDataType "mycustom" = some dtn
        ∧ dtn.name = "mycustom")
    ∧ (dataTypeForValue c5World c5Registry (.structT "TV") (.vStruct 0)).1.map
        DataType.name ≠ some "mycustom"
    ∧ (dataTypeForValue c5World c5Registry (.structT "TV") (.vStruct 0)).1.map
        DataType.name = some "other" :=
  ⟨rfl,
   ⟨mkDataType c5World { value? := none, codec? := none, name := "mycustom", oid := 2 },
     rfl, rfl⟩,
   by decide, by decide⟩
